import Mathlib

/-!
Shallow embedding of the `escrow` ink! contract (`src/lib.rs`) of
hgminerva/web3-asset-escrow, together with proofs of the specified
properties of its six messages (`setup`, `get`, `close`, `open`, `add`,
`release`, `force_release`).

Modelling conventions:
* `AccountId` values are opaque identities: they are only stored and
  compared for equality, never manipulated arithmetically, so they are
  embedded as `Nat`.
* `u128` fields (`asset_id`, `balance`) are likewise only stored, compared
  and passed through, so they are embedded as plain `Nat`.
* `u16` fields (`reference`, `maximum_accounts`) are embedded as `Nat`
  reduced modulo `2^16` at their storage sites; the width matters because
  `add` compares `self.accounts.len() as u16` (a truncating cast, embedded
  as `% 65536`) against `maximum_accounts`.
* The `self.env().call_runtime(...)` asset-transfer collaborator is an
  oracle parameter `transfer : Nat → Nat → Nat → Bool` (asset id, target,
  amount); each operation also returns the list of transfer calls it made,
  so the arguments passed to the collaborator are observable.
* `self.env().emit_event(...)` is embedded by returning the list of
  emitted events.
* Each message returns its Rust result value (`Result<(), Error>` resp.
  `Result<(), ContractError>`) as an `Except _ Unit`.
-/

namespace escrow

/-- Success messages, from `enum Success` in `src/lib.rs`. -/
inductive Success where
  | EscrowSetupSuccess
  | EscrowCloseSuccess
  | EscrowOpenSuccess
  | EscrowAccountAdded
  | EscrowAccountReleased
deriving DecidableEq, Repr

/-- Modelled from the spec: `crate::errors::Error` lives in `src/errors.rs`,
which is not part of the sources given; its five variants are the ones used
in `src/lib.rs` and listed in the spec's soft/domain error taxonomy
(`BadOrigin`, `EscrowClosed`, `AccountDuplicate`, `AccountCapacityExceeded`,
`AccountNotFound`), under the variant names `lib.rs` uses. -/
inductive Error where
  | BadOrigin
  | EscrowIsClose
  | EscrowAccountDuplicate
  | EscrowAccountMax
  | EscrowAccountNotFound
deriving DecidableEq, Repr

/-- Modelled from the spec: `crate::errors::RuntimeError` is not part of the
sources given; `lib.rs` uses its single variant `CallRuntimeFailed` for a
failed `call_runtime` (the fatal infrastructure error of the spec). -/
inductive RuntimeError where
  | CallRuntimeFailed
deriving DecidableEq, Repr

/-- Modelled from the spec: `crate::errors::ContractError` is not part of
the sources given; `lib.rs` converts a `RuntimeError` into it via `?`, and
the spec says collaborator failure is "propagated unmodified as a fatal
error", so it is modelled as a wrapper of `RuntimeError`. -/
inductive ContractError where
  | RuntimeErr (e : RuntimeError)
deriving DecidableEq, Repr

/-- Escrow status payload of an event, from `enum EscrowStatus`. -/
inductive EscrowStatus where
  | EmitSuccess (s : Success)
  | EmitError (e : Error)
deriving DecidableEq, Repr

/-- Escrow event, from `struct EscrowEvent`. -/
structure EscrowEvent where
  operator : Nat
  status : EscrowStatus
deriving DecidableEq, Repr

/-- Escrow account entry, from `struct Account`. -/
structure Account where
  reference : Nat
  account : Nat
  balance : Nat
  recipient : Nat
  status : Nat
deriving DecidableEq, Repr

instance : Inhabited Account := ⟨⟨0, 0, 0, 0, 0⟩⟩

/-- Escrow storage, from `struct Escrow`. `status` is `0` for open and `1`
for closed. -/
structure Escrow where
  asset_id : Nat
  owner : Nat
  manager : Nat
  maximum_accounts : Nat
  accounts : List Account
  status : Nat
deriving DecidableEq, Repr

/-- One recorded invocation of the asset-transfer collaborator:
the arguments of `AssetsCall::Transfer { id, target, amount }`. -/
structure TransferCall where
  id : Nat
  target : Nat
  amount : Nat
deriving DecidableEq, Repr

/-- Result of one message call: the post-state, the events emitted, the
transfer-collaborator calls made, and the Rust return value. -/
structure OpOut (ε : Type) where
  state : Escrow
  events : List EscrowEvent
  calls : List TransferCall
  result : Except ε Unit

/-- Constructor `Escrow::new`: caller becomes both owner and manager,
accounts start empty, status starts open (`0`). `maximum_accounts` is a
`u16`, hence the `% 65536`. -/
def new (caller asset_id maximum_accounts : Nat) : Escrow :=
  { asset_id := asset_id
    owner := caller
    manager := caller
    maximum_accounts := maximum_accounts % 65536
    accounts := []
    status := 0 }

/-- Constructor `Escrow::default`: `new(0, 0)`. -/
def defaultEscrow (caller : Nat) : Escrow :=
  new caller 0 0

/-- Message `Escrow::setup`. Owner-only; on success replaces `asset_id`,
`manager`, `maximum_accounts`, clears `accounts` and sets `status := 0`. -/
def setup (caller asset_id manager maximum_accounts : Nat) (s : Escrow) :
    OpOut Error :=
  if caller ≠ s.owner then
    ⟨s, [⟨caller, .EmitError .BadOrigin⟩], [], .ok ()⟩
  else
    ⟨{ asset_id := asset_id
       owner := s.owner
       manager := manager
       maximum_accounts := maximum_accounts % 65536
       accounts := []
       status := 0 },
     [⟨caller, .EmitSuccess .EscrowSetupSuccess⟩], [], .ok ()⟩

/-- Message `Escrow::get`: returns the tuple
`(asset_id, owner, manager, maximum_accounts, status)`; the body emits no
event, hence the empty event list. -/
def get (s : Escrow) : (Nat × Nat × Nat × Nat × Nat) × List EscrowEvent :=
  ((s.asset_id, s.owner, s.manager, s.maximum_accounts, s.status), [])

/-- Message `Escrow::close`. Manager-only; sets `status := 1`. -/
def close (caller : Nat) (s : Escrow) : OpOut Error :=
  if caller ≠ s.manager then
    ⟨s, [⟨caller, .EmitError .BadOrigin⟩], [], .ok ()⟩
  else
    ⟨{ s with status := 1 },
     [⟨caller, .EmitSuccess .EscrowCloseSuccess⟩], [], .ok ()⟩

/-- Message `Escrow::open`. Manager-only; sets `status := 0`. -/
def open_escrow (caller : Nat) (s : Escrow) : OpOut Error :=
  if caller ≠ s.manager then
    ⟨s, [⟨caller, .EmitError .BadOrigin⟩], [], .ok ()⟩
  else
    ⟨{ s with status := 0 },
     [⟨caller, .EmitSuccess .EscrowOpenSuccess⟩], [], .ok ()⟩

/-- Message `Escrow::add`. Guards in source order: manager origin, escrow
open, duplicate holder (a linear scan), capacity
(`self.accounts.len() as u16 >= self.maximum_accounts`, the truncating cast
embedded as `% 65536`); then pushes the new account with status `1`
(liquid). `reference` is a `u16`, hence the `% 65536`. -/
def add (caller reference account amount recipient : Nat) (s : Escrow) :
    OpOut Error :=
  if caller ≠ s.manager then
    ⟨s, [⟨caller, .EmitError .BadOrigin⟩], [], .ok ()⟩
  else if s.status ≠ 0 then
    ⟨s, [⟨caller, .EmitError .EscrowIsClose⟩], [], .ok ()⟩
  else if s.accounts.any (fun a => a.account == account) then
    ⟨s, [⟨caller, .EmitError .EscrowAccountDuplicate⟩], [], .ok ()⟩
  else if s.accounts.length % 65536 ≥ s.maximum_accounts then
    ⟨s, [⟨caller, .EmitError .EscrowAccountMax⟩], [], .ok ()⟩
  else
    ⟨{ s with accounts :=
         s.accounts ++ [⟨reference % 65536, account, amount, recipient, 1⟩] },
     [⟨caller, .EmitSuccess .EscrowAccountAdded⟩], [], .ok ()⟩

/-- Rust `Vec::swap_remove(i)`: replace the element at `i` with the last
element and pop the last element. -/
def swapRemove (l : List Account) (i : Nat) : List Account :=
  match l.getLast? with
  | none => l
  | some z => (l.set i z).dropLast

/-- Message `Escrow::release`. No origin gate; open check; linear scan for
the first account whose `account` field equals the caller; on a hit the
transfer collaborator is called with the ledger's `asset_id`, the entry's
stored `recipient` and its `balance`; on collaborator failure the call
aborts with `CallRuntimeFailed` (no event, no mutation); on success the
entry is removed with `swap_remove`. -/
def release (transfer : Nat → Nat → Nat → Bool) (caller : Nat)
    (s : Escrow) : OpOut ContractError :=
  if s.status ≠ 0 then
    ⟨s, [⟨caller, .EmitError .EscrowIsClose⟩], [], .ok ()⟩
  else
    match s.accounts.findIdx? (fun a => a.account == caller) with
    | some i =>
      if transfer s.asset_id (s.accounts.getD i default).recipient
          (s.accounts.getD i default).balance then
        ⟨{ s with accounts := swapRemove s.accounts i },
         [⟨caller, .EmitSuccess .EscrowAccountReleased⟩],
         [⟨s.asset_id, (s.accounts.getD i default).recipient,
           (s.accounts.getD i default).balance⟩], .ok ()⟩
      else
        ⟨s, [], [⟨s.asset_id, (s.accounts.getD i default).recipient,
          (s.accounts.getD i default).balance⟩],
         .error (.RuntimeErr .CallRuntimeFailed)⟩
    | none =>
      ⟨s, [⟨caller, .EmitError .EscrowAccountNotFound⟩], [], .ok ()⟩

/-- Message `Escrow::force_release`. Manager-only; open check; linear scan
for the first account whose `account` field equals the `account` argument;
the transfer targets the supplied `recipient` argument, not the entry's
stored recipient; same collaborator-failure semantics as `release`. -/
def force_release (transfer : Nat → Nat → Nat → Bool)
    (caller account recipient : Nat) (s : Escrow) : OpOut ContractError :=
  if caller ≠ s.manager then
    ⟨s, [⟨caller, .EmitError .BadOrigin⟩], [], .ok ()⟩
  else if s.status ≠ 0 then
    ⟨s, [⟨caller, .EmitError .EscrowIsClose⟩], [], .ok ()⟩
  else
    match s.accounts.findIdx? (fun a => a.account == account) with
    | some i =>
      if transfer s.asset_id recipient (s.accounts.getD i default).balance then
        ⟨{ s with accounts := swapRemove s.accounts i },
         [⟨caller, .EmitSuccess .EscrowAccountReleased⟩],
         [⟨s.asset_id, recipient, (s.accounts.getD i default).balance⟩],
         .ok ()⟩
      else
        ⟨s, [], [⟨s.asset_id, recipient,
          (s.accounts.getD i default).balance⟩],
         .error (.RuntimeErr .CallRuntimeFailed)⟩
    | none =>
      ⟨s, [⟨caller, .EmitError .EscrowAccountNotFound⟩], [], .ok ()⟩

/-- One ledger operation together with its caller identity and arguments. -/
inductive Op where
  | setup (caller asset_id manager maximum_accounts : Nat)
  | close (caller : Nat)
  | open_escrow (caller : Nat)
  | add (caller reference account amount recipient : Nat)
  | release (caller : Nat)
  | force_release (caller account recipient : Nat)
deriving DecidableEq, Repr

/-- Caller identity of an operation. -/
def Op.caller : Op → Nat
  | .setup c _ _ _ => c
  | .close c => c
  | .open_escrow c => c
  | .add c _ _ _ _ => c
  | .release c => c
  | .force_release c _ _ => c

/-- Whether a Rust result value is the success-shaped `Ok(())`. -/
def isOkRes {ε : Type} : Except ε Unit → Bool
  | .ok _ => true
  | .error _ => false

/-- Uniform outcome of dispatching one operation. -/
structure StepOut where
  state : Escrow
  events : List EscrowEvent
  calls : List TransferCall
  ok : Bool
deriving DecidableEq

/-- Dispatch one operation against a state, with the transfer collaborator
given as an oracle. -/
def applyOp (transfer : Nat → Nat → Nat → Bool) (s : Escrow) :
    Op → StepOut
  | .setup c a m x =>
    let r := setup c a m x s
    ⟨r.state, r.events, r.calls, isOkRes r.result⟩
  | .close c =>
    let r := close c s
    ⟨r.state, r.events, r.calls, isOkRes r.result⟩
  | .open_escrow c =>
    let r := open_escrow c s
    ⟨r.state, r.events, r.calls, isOkRes r.result⟩
  | .add c ref acc amt rcp =>
    let r := add c ref acc amt rcp s
    ⟨r.state, r.events, r.calls, isOkRes r.result⟩
  | .release c =>
    let r := release transfer c s
    ⟨r.state, r.events, r.calls, isOkRes r.result⟩
  | .force_release c acc rcp =>
    let r := force_release transfer c acc rcp s
    ⟨r.state, r.events, r.calls, isOkRes r.result⟩

/-- Run a sequence of operations from a state. -/
def runOps (transfer : Nat → Nat → Nat → Bool) (s : Escrow)
    (ops : List Op) : Escrow :=
  ops.foldl (fun st op => (applyOp transfer st op).state) s

/-- The state invariant maintained by every operation: the account count
never exceeds the capacity, the capacity is a `u16` value, and holder
identities are pairwise distinct. -/
def Inv (s : Escrow) : Prop :=
  s.accounts.length ≤ s.maximum_accounts ∧
  s.maximum_accounts < 65536 ∧
  (s.accounts.map (fun a => a.account)).Nodup

/-! ### List-level helper lemmas -/

/-- Unfolding `swapRemove` on a list with a known last element. -/
theorem swapRemove_eq (l : List Account) (z : Account) (i : Nat)
    (hz : l.getLast? = some z) : swapRemove l i = (l.set i z).dropLast := by
  simp [swapRemove, hz]

/-- Rust's `swap_remove(i)` produces a permutation of ordinary removal of
the `i`-th element. -/
theorem swapRemove_perm_eraseIdx (l : List Account) (i : Nat)
    (h : i < l.length) : (swapRemove l i).Perm (l.eraseIdx i) := by
  induction l generalizing i with
  | nil => simp at h
  | cons a t ih =>
    cases t with
    | nil =>
      cases i with
      | zero => simp [swapRemove]
      | succ j => simp at h
    | cons b t' =>
      have hne : b :: t' ≠ [] := by simp
      have hz : (a :: b :: t').getLast? = some ((b :: t').getLast hne) := by
        rw [List.getLast?_cons_cons]
        exact List.getLast?_eq_getLast _ hne
      cases i with
      | zero =>
        rw [swapRemove_eq _ _ _ hz]
        simp only [List.set_cons_zero, List.dropLast_cons₂,
          List.eraseIdx_cons_zero]
        have hview : (b :: t').dropLast ++ [(b :: t').getLast hne] = b :: t' :=
          List.dropLast_append_getLast hne
        exact ((List.perm_append_singleton _ _).symm).trans (by rw [hview])
      | succ j =>
        have hj : j < (b :: t').length := by
          simpa [Nat.succ_lt_succ_iff] using h
        rw [swapRemove_eq _ _ _ hz]
        have hsetne : (b :: t').set j ((b :: t').getLast hne) ≠ [] := by
          apply List.ne_nil_of_length_pos
          simp
        rw [List.set_cons_succ, List.dropLast_cons_of_ne_nil hsetne,
          List.eraseIdx_cons_succ]
        apply List.Perm.cons
        have hzz : (b :: t').getLast? = some ((b :: t').getLast hne) :=
          List.getLast?_eq_getLast _ hne
        rw [← swapRemove_eq _ _ _ hzz]
        exact ih j hj

/-- Characterisation of the linear first-match scan: `findIdx?` returns `i`
exactly when position `i` matches and no earlier position does. -/
theorem findIdx_getD_iff {α : Type} [Inhabited α] (p : α → Bool)
    (l : List α) (i : Nat) :
    l.findIdx? p = some i ↔
      i < l.length ∧ p (l.getD i default) = true ∧
        ∀ j, j < i → p (l.getD j default) = false := by
  induction l generalizing i with
  | nil => simp
  | cons x t ih =>
    rw [List.findIdx?_cons]
    by_cases hx : p x = true
    · rw [if_pos hx]
      constructor
      · intro hsome
        obtain rfl : 0 = i := by injection hsome
        exact ⟨by simp, by simpa using hx, fun j hj => absurd hj (by omega)⟩
      · rintro ⟨hlen, hp, hfirst⟩
        cases i with
        | zero => rfl
        | succ k => exact absurd (hfirst 0 (by omega)) (by simpa using hx)
    · have hx' : p x = false := by simpa using hx
      rw [if_neg hx, List.findIdx?_start_succ]
      simp only [Nat.zero_add, Option.map_eq_some']
      constructor
      · rintro ⟨k, hk, rfl⟩
        obtain ⟨hklen, hkp, hkfirst⟩ := (ih k).mp hk
        refine ⟨by simpa using hklen, by simpa using hkp, ?_⟩
        intro j hj
        cases j with
        | zero => simpa using hx'
        | succ m => simpa using hkfirst m (by omega)
      · rintro ⟨hlen, hp, hfirst⟩
        cases i with
        | zero => exact absurd (by simpa using hp) hx
        | succ k =>
          refine ⟨k, (ih k).mpr ⟨by simpa using hlen, by simpa using hp, ?_⟩,
            rfl⟩
          intro j hj
          simpa using hfirst (j + 1) (by omega)

/-- A successful `findIdx?` returns an index inside the list. -/
theorem findIdx_lt_length {α : Type} (p : α → Bool) (l : List α) (i : Nat)
    (h : l.findIdx? p = some i) : i < l.length :=
  (List.findIdx?_eq_some_iff_findIdx_eq.mp h).1

/-! ### Preservation of the state invariant -/

/-- Removing an account with `swapRemove` preserves the invariant. -/
theorem inv_swapRemove (s : Escrow) (i : Nat) (hi : i < s.accounts.length)
    (h : Inv s) : Inv { s with accounts := swapRemove s.accounts i } := by
  obtain ⟨h1, h2, h3⟩ := h
  have hperm := swapRemove_perm_eraseIdx s.accounts i hi
  refine ⟨?_, h2, ?_⟩
  · have hlen : (swapRemove s.accounts i).length =
        (s.accounts.eraseIdx i).length := hperm.length_eq
    have := List.length_eraseIdx_le s.accounts i
    simp only [hlen]
    omega
  · have hmap : ((swapRemove s.accounts i).map (fun a => a.account)).Perm
        ((s.accounts.eraseIdx i).map (fun a => a.account)) :=
      hperm.map _
    have hsub : ((s.accounts.eraseIdx i).map (fun a => a.account)).Sublist
        (s.accounts.map (fun a => a.account)) :=
      (List.eraseIdx_sublist s.accounts i).map _
    exact hmap.nodup_iff.mpr (h3.sublist hsub)

/-- A freshly constructed ledger satisfies the invariant. -/
theorem inv_new (caller asset_id maximum_accounts : Nat) :
    Inv (new caller asset_id maximum_accounts) := by
  refine ⟨by simp [new], ?_, by simp [new]⟩
  simp only [new]
  omega

/-- `setup` preserves the invariant. -/
theorem inv_setup (c a m x : Nat) (s : Escrow) (h : Inv s) :
    Inv (setup c a m x s).state := by
  unfold setup
  split
  · exact h
  · exact ⟨by simp, by simp; omega, by simp⟩

/-- `close` preserves the invariant. -/
theorem inv_close (c : Nat) (s : Escrow) (h : Inv s) :
    Inv (close c s).state := by
  unfold close
  split
  · exact h
  · exact ⟨h.1, h.2.1, h.2.2⟩

/-- `open` preserves the invariant. -/
theorem inv_open (c : Nat) (s : Escrow) (h : Inv s) :
    Inv (open_escrow c s).state := by
  unfold open_escrow
  split
  · exact h
  · exact ⟨h.1, h.2.1, h.2.2⟩

/-- `add` preserves the invariant. -/
theorem inv_add (c ref acc amt rcp : Nat) (s : Escrow) (h : Inv s) :
    Inv (add c ref acc amt rcp s).state := by
  obtain ⟨h1, h2, h3⟩ := h
  unfold add
  split
  · exact ⟨h1, h2, h3⟩
  split
  · exact ⟨h1, h2, h3⟩
  split
  · exact ⟨h1, h2, h3⟩
  split
  · exact ⟨h1, h2, h3⟩
  next hdup hcap =>
    have hmod : s.accounts.length % 65536 = s.accounts.length :=
      Nat.mod_eq_of_lt (by omega)
    rw [hmod] at hcap
    refine ⟨by simp; omega, h2, ?_⟩
    have hnotmem : acc ∉ s.accounts.map (fun a => a.account) := by
      intro hmem
      obtain ⟨x, hx, hxeq⟩ := List.mem_map.mp hmem
      exact hdup (List.any_eq_true.mpr ⟨x, hx, by simp [hxeq]⟩)
    simp only [List.map_append, List.map_cons, List.map_nil]
    exact (List.nodup_append).mpr
      ⟨h3, List.nodup_singleton _, by
        intro y hy hy1
        simp only [List.mem_singleton] at hy1
        exact hnotmem (hy1 ▸ hy)⟩

/-- `release` preserves the invariant. -/
theorem inv_release (t : Nat → Nat → Nat → Bool) (c : Nat) (s : Escrow)
    (h : Inv s) : Inv (release t c s).state := by
  unfold release
  split
  · exact h
  split
  next i hf =>
    split
    · exact inv_swapRemove s i (findIdx_lt_length _ _ _ hf) h
    · exact h
  · exact h

/-- `force_release` preserves the invariant. -/
theorem inv_force_release (t : Nat → Nat → Nat → Bool)
    (c acc rcp : Nat) (s : Escrow) (h : Inv s) :
    Inv (force_release t c acc rcp s).state := by
  unfold force_release
  split
  · exact h
  split
  · exact h
  split
  next i hf =>
    split
    · exact inv_swapRemove s i (findIdx_lt_length _ _ _ hf) h
    · exact h
  · exact h

/-- Every single operation preserves the invariant. -/
theorem inv_applyOp (t : Nat → Nat → Nat → Bool) (s : Escrow) (op : Op)
    (h : Inv s) : Inv (applyOp t s op).state := by
  cases op with
  | setup c a m x => exact inv_setup c a m x s h
  | close c => exact inv_close c s h
  | open_escrow c => exact inv_open c s h
  | add c ref acc amt rcp => exact inv_add c ref acc amt rcp s h
  | release c => exact inv_release t c s h
  | force_release c acc rcp => exact inv_force_release t c acc rcp s h

/-- Every sequence of operations preserves the invariant. -/
theorem inv_runOps (t : Nat → Nat → Nat → Bool) (ops : List Op)
    (s : Escrow) (h : Inv s) : Inv (runOps t s ops) := by
  induction ops generalizing s with
  | nil => exact h
  | cons op ops ih =>
    simp only [runOps, List.foldl_cons]
    exact ih _ (inv_applyOp t s op h)

/-! ### Claim theorems -/

/-- C1: Capacity invariant. For every sequence of operations from a freshly
constructed ledger, the length of `accounts` never exceeds
`maximum_accounts`; and an `add` by the manager on an open ledger with a
non-duplicate holder, made when `accounts` has exactly `maximum_accounts`
entries, reports `EscrowAccountMax` (the capacity-exceeded error) and
leaves the whole state unchanged. -/
theorem capacity_invariant (t : Nat → Nat → Nat → Bool)
    (caller asset_id maximum_accounts : Nat) (ops : List Op) :
    (runOps t (new caller asset_id maximum_accounts) ops).accounts.length ≤
      (runOps t (new caller asset_id maximum_accounts) ops).maximum_accounts
    ∧
    (∀ (s : Escrow) (c ref acc amt rcp : Nat),
      c = s.manager → s.status = 0 →
      (∀ x ∈ s.accounts, x.account ≠ acc) →
      s.accounts.length = s.maximum_accounts →
      s.maximum_accounts < 65536 →
      add c ref acc amt rcp s =
        ⟨s, [⟨c, .EmitError .EscrowAccountMax⟩], [], .ok ()⟩) := by
  constructor
  · exact (inv_runOps t ops _ (inv_new caller asset_id maximum_accounts)).1
  · intro s c ref acc amt rcp hc hst hnodup hfull hmax
    unfold add
    rw [if_neg (by simp [hc]), if_neg (by simp [hst]),
      if_neg (fun hany => by
        obtain ⟨x, hx, hxe⟩ := List.any_eq_true.mp hany
        exact hnodup x hx (by simpa using hxe)),
      if_pos (by omega)]

/-- C1 witness: a full ledger (capacity 1, one account) rejects a fresh
holder with the capacity error and is left unchanged. -/
theorem capacity_invariant_witness :
    add 2 4 11 5 22 ⟨7, 1, 2, 1, [⟨1, 10, 5, 20, 1⟩], 0⟩ =
      ⟨⟨7, 1, 2, 1, [⟨1, 10, 5, 20, 1⟩], 0⟩,
       [⟨2, .EmitError .EscrowAccountMax⟩], [], .ok ()⟩ :=
  (capacity_invariant (fun _ _ _ => true) 0 0 0 []).2
    ⟨7, 1, 2, 1, [⟨1, 10, 5, 20, 1⟩], 0⟩ 2 4 11 5 22
    rfl rfl (by decide) rfl (by decide)

/-- C2: Uniqueness invariant. After every sequence of operations from a
freshly constructed ledger the holder identities in `accounts` are pairwise
distinct (so at most one entry per holder); and an `add` whose holder
already appears reports `EscrowAccountDuplicate` and changes nothing. -/
theorem holder_uniqueness (t : Nat → Nat → Nat → Bool)
    (caller asset_id maximum_accounts : Nat) (ops : List Op) :
    ((runOps t (new caller asset_id maximum_accounts) ops).accounts.map
      (fun a => a.account)).Nodup
    ∧
    (∀ (s : Escrow) (c ref acc amt rcp : Nat),
      c = s.manager → s.status = 0 →
      (∃ x ∈ s.accounts, x.account = acc) →
      add c ref acc amt rcp s =
        ⟨s, [⟨c, .EmitError .EscrowAccountDuplicate⟩], [], .ok ()⟩) := by
  constructor
  · exact (inv_runOps t ops _ (inv_new caller asset_id maximum_accounts)).2.2
  · intro s c ref acc amt rcp hc hst hdup
    unfold add
    rw [if_neg (by simp [hc]), if_neg (by simp [hst]),
      if_pos (List.any_eq_true.mpr (by
        obtain ⟨x, hx, hxe⟩ := hdup
        exact ⟨x, hx, by simpa using hxe⟩))]

/-- C2 witness: adding holder `10` twice yields the duplicate error and no
change on the second call. -/
theorem holder_uniqueness_witness :
    add 2 2 10 50 21 ⟨7, 1, 2, 2, [⟨1, 10, 100, 20, 1⟩], 0⟩ =
      ⟨⟨7, 1, 2, 2, [⟨1, 10, 100, 20, 1⟩], 0⟩,
       [⟨2, .EmitError .EscrowAccountDuplicate⟩], [], .ok ()⟩ :=
  (holder_uniqueness (fun _ _ _ => true) 0 0 0 []).2
    ⟨7, 1, 2, 2, [⟨1, 10, 100, 20, 1⟩], 0⟩ 2 2 10 50 21
    rfl rfl ⟨⟨1, 10, 100, 20, 1⟩, by decide, rfl⟩

/-- C3: Release atomicity on transfer failure. If the transfer collaborator
fails during `release` (resp. `force_release`), the call aborts with the
propagated `CallRuntimeFailed` error, the state is completely unchanged (in
particular the targeted account is still present), and no notification at
all is emitted. -/
theorem release_transfer_failure_atomic (t : Nat → Nat → Nat → Bool)
    (s : Escrow) (c acc rcp i : Nat) :
    (s.status = 0 →
      s.accounts.findIdx? (fun a => a.account == c) = some i →
      t s.asset_id (s.accounts.getD i default).recipient
          (s.accounts.getD i default).balance = false →
      release t c s =
        ⟨s, [], [⟨s.asset_id, (s.accounts.getD i default).recipient,
          (s.accounts.getD i default).balance⟩],
         .error (.RuntimeErr .CallRuntimeFailed)⟩ ∧
      s.accounts.getD i default ∈ (release t c s).state.accounts)
    ∧
    (c = s.manager → s.status = 0 →
      s.accounts.findIdx? (fun a => a.account == acc) = some i →
      t s.asset_id rcp (s.accounts.getD i default).balance = false →
      force_release t c acc rcp s =
        ⟨s, [], [⟨s.asset_id, rcp, (s.accounts.getD i default).balance⟩],
         .error (.RuntimeErr .CallRuntimeFailed)⟩ ∧
      s.accounts.getD i default ∈ (force_release t c acc rcp s).state.accounts) := by
  constructor
  · intro hst hf ht
    have heq : release t c s =
        ⟨s, [], [⟨s.asset_id, (s.accounts.getD i default).recipient,
          (s.accounts.getD i default).balance⟩],
         .error (.RuntimeErr .CallRuntimeFailed)⟩ := by
      unfold release
      rw [if_neg (by simp [hst])]
      simp only [hf]
      rw [if_neg (by simp_all)]
    refine ⟨heq, ?_⟩
    rw [heq]
    have hi : i < s.accounts.length := findIdx_lt_length _ _ _ hf
    rw [List.getD_eq_getElem s.accounts default hi]
    exact List.getElem_mem hi
  · intro hc hst hf ht
    have heq : force_release t c acc rcp s =
        ⟨s, [], [⟨s.asset_id, rcp, (s.accounts.getD i default).balance⟩],
         .error (.RuntimeErr .CallRuntimeFailed)⟩ := by
      unfold force_release
      rw [if_neg (by simp [hc]), if_neg (by simp [hst])]
      simp only [hf]
      rw [if_neg (by simp_all)]
    refine ⟨heq, ?_⟩
    rw [heq]
    have hi : i < s.accounts.length := findIdx_lt_length _ _ _ hf
    rw [List.getD_eq_getElem s.accounts default hi]
    exact List.getElem_mem hi

/-- C3 witness: with an always-failing collaborator, releasing holder `10`
aborts with the runtime error and the account is still present. -/
theorem release_transfer_failure_atomic_witness :
    release (fun _ _ _ => false) 10 ⟨7, 1, 2, 2, [⟨1, 10, 100, 20, 1⟩], 0⟩ =
      ⟨⟨7, 1, 2, 2, [⟨1, 10, 100, 20, 1⟩], 0⟩, [], [⟨7, 20, 100⟩],
       .error (.RuntimeErr .CallRuntimeFailed)⟩ ∧
    (⟨1, 10, 100, 20, 1⟩ : Account) ∈
      (release (fun _ _ _ => false) 10
        ⟨7, 1, 2, 2, [⟨1, 10, 100, 20, 1⟩], 0⟩).state.accounts :=
  (release_transfer_failure_atomic (fun _ _ _ => false)
    ⟨7, 1, 2, 2, [⟨1, 10, 100, 20, 1⟩], 0⟩ 10 0 0 0).1
    rfl (by decide) rfl

/-- C4: `release` semantics. The theorem holds for an arbitrary caller with
no hypothesis relating it to `manager` (there is no manager gate): on a
closed ledger any caller gets `EscrowIsClose` with no mutation; on an open
ledger, if no entry's holder equals the caller the result is
`EscrowAccountNotFound` with no mutation; if position `i` holds the first
entry whose holder equals the caller and the collaborator succeeds on the
ledger's `asset_id`, that entry's stored `recipient` and its `balance`,
then exactly that entry is removed (the remaining accounts are a
permutation of `accounts` with entry `i` erased) and success is
reported. -/
theorem release_semantics (t : Nat → Nat → Nat → Bool) (c : Nat)
    (s : Escrow) (i : Nat) :
    (s.status ≠ 0 →
      release t c s = ⟨s, [⟨c, .EmitError .EscrowIsClose⟩], [], .ok ()⟩)
    ∧
    (s.status = 0 → (∀ x ∈ s.accounts, x.account ≠ c) →
      release t c s = ⟨s, [⟨c, .EmitError .EscrowAccountNotFound⟩], [],
        .ok ()⟩)
    ∧
    (s.status = 0 → i < s.accounts.length →
      (s.accounts.getD i default).account = c →
      (∀ j, j < i → (s.accounts.getD j default).account ≠ c) →
      t s.asset_id (s.accounts.getD i default).recipient
          (s.accounts.getD i default).balance = true →
      release t c s =
        ⟨{ s with accounts := swapRemove s.accounts i },
         [⟨c, .EmitSuccess .EscrowAccountReleased⟩],
         [⟨s.asset_id, (s.accounts.getD i default).recipient,
           (s.accounts.getD i default).balance⟩], .ok ()⟩ ∧
      ((release t c s).state.accounts).Perm (s.accounts.eraseIdx i)) := by
  refine ⟨?_, ?_, ?_⟩
  · intro hst
    unfold release
    rw [if_pos hst]
  · intro hst hnone
    have hf : s.accounts.findIdx? (fun a => a.account == c) = none :=
      List.findIdx?_eq_none_iff.mpr
        (fun x hx => by simpa using hnone x hx)
    unfold release
    rw [if_neg (by simp [hst])]
    simp only [hf]
  · intro hst hi hacc hfirst ht
    have hf : s.accounts.findIdx? (fun a => a.account == c) = some i :=
      (findIdx_getD_iff _ _ _).mpr
        ⟨hi, by simpa using hacc, fun j hj => by simpa using hfirst j hj⟩
    have heq : release t c s =
        ⟨{ s with accounts := swapRemove s.accounts i },
         [⟨c, .EmitSuccess .EscrowAccountReleased⟩],
         [⟨s.asset_id, (s.accounts.getD i default).recipient,
           (s.accounts.getD i default).balance⟩], .ok ()⟩ := by
      unfold release
      rw [if_neg (by simp [hst])]
      simp only [hf]
      rw [if_pos (by simp_all)]
    exact ⟨heq, by rw [heq]; exact swapRemove_perm_eraseIdx s.accounts i hi⟩

/-- C4 witness: on an open two-account ledger, holder `11` (not the
manager) releases its own entry; the collaborator is called with asset `7`,
stored recipient `21` and balance `50`, and only that entry is removed. -/
theorem release_semantics_witness :
    release (fun _ _ _ => true) 11
        ⟨7, 1, 2, 2, [⟨1, 10, 100, 20, 1⟩, ⟨2, 11, 50, 21, 1⟩], 0⟩ =
      ⟨⟨7, 1, 2, 2, [⟨1, 10, 100, 20, 1⟩], 0⟩,
       [⟨11, .EmitSuccess .EscrowAccountReleased⟩],
       [⟨7, 21, 50⟩], .ok ()⟩ ∧
    ((release (fun _ _ _ => true) 11
        ⟨7, 1, 2, 2, [⟨1, 10, 100, 20, 1⟩, ⟨2, 11, 50, 21, 1⟩], 0⟩
      ).state.accounts).Perm [⟨1, 10, 100, 20, 1⟩] :=
  (release_semantics (fun _ _ _ => true) 11
    ⟨7, 1, 2, 2, [⟨1, 10, 100, 20, 1⟩, ⟨2, 11, 50, 21, 1⟩], 0⟩ 1).2.2
    rfl (by decide) rfl (by decide) rfl

/-- C5: `force_release` semantics. A non-manager caller gets `BadOrigin`
with no mutation; the manager on a closed ledger gets `EscrowIsClose` with
no mutation; on an open ledger with no entry for the given holder,
`EscrowAccountNotFound` with no mutation; if position `i` holds the first
entry whose holder equals the `account` argument and the collaborator
succeeds on the ledger's `asset_id`, the *supplied* `recipient` argument
and the entry's `balance`, then exactly that entry is removed and success
is reported. -/
theorem force_release_semantics (t : Nat → Nat → Nat → Bool)
    (c acc rcp : Nat) (s : Escrow) (i : Nat) :
    (c ≠ s.manager →
      force_release t c acc rcp s =
        ⟨s, [⟨c, .EmitError .BadOrigin⟩], [], .ok ()⟩)
    ∧
    (c = s.manager → s.status ≠ 0 →
      force_release t c acc rcp s =
        ⟨s, [⟨c, .EmitError .EscrowIsClose⟩], [], .ok ()⟩)
    ∧
    (c = s.manager → s.status = 0 → (∀ x ∈ s.accounts, x.account ≠ acc) →
      force_release t c acc rcp s =
        ⟨s, [⟨c, .EmitError .EscrowAccountNotFound⟩], [], .ok ()⟩)
    ∧
    (c = s.manager → s.status = 0 → i < s.accounts.length →
      (s.accounts.getD i default).account = acc →
      (∀ j, j < i → (s.accounts.getD j default).account ≠ acc) →
      t s.asset_id rcp (s.accounts.getD i default).balance = true →
      force_release t c acc rcp s =
        ⟨{ s with accounts := swapRemove s.accounts i },
         [⟨c, .EmitSuccess .EscrowAccountReleased⟩],
         [⟨s.asset_id, rcp, (s.accounts.getD i default).balance⟩],
         .ok ()⟩ ∧
      ((force_release t c acc rcp s).state.accounts).Perm
        (s.accounts.eraseIdx i)) := by
  refine ⟨?_, ?_, ?_, ?_⟩
  · intro hc
    unfold force_release
    rw [if_pos hc]
  · intro hc hst
    unfold force_release
    rw [if_neg (by simp [hc]), if_pos hst]
  · intro hc hst hnone
    have hf : s.accounts.findIdx? (fun a => a.account == acc) = none :=
      List.findIdx?_eq_none_iff.mpr
        (fun x hx => by simpa using hnone x hx)
    unfold force_release
    rw [if_neg (by simp [hc]), if_neg (by simp [hst])]
    simp only [hf]
  · intro hc hst hi hacc hfirst ht
    have hf : s.accounts.findIdx? (fun a => a.account == acc) = some i :=
      (findIdx_getD_iff _ _ _).mpr
        ⟨hi, by simpa using hacc, fun j hj => by simpa using hfirst j hj⟩
    have heq : force_release t c acc rcp s =
        ⟨{ s with accounts := swapRemove s.accounts i },
         [⟨c, .EmitSuccess .EscrowAccountReleased⟩],
         [⟨s.asset_id, rcp, (s.accounts.getD i default).balance⟩],
         .ok ()⟩ := by
      unfold force_release
      rw [if_neg (by simp [hc]), if_neg (by simp [hst])]
      simp only [hf]
      rw [if_pos (by simp_all)]
    exact ⟨heq, by rw [heq]; exact swapRemove_perm_eraseIdx s.accounts i hi⟩

/-- C5 witness: the manager force-releases holder `10` to the supplied
recipient `99` (not the stored recipient `20`); the collaborator is called
with `(7, 99, 100)` and the entry is removed. -/
theorem force_release_semantics_witness :
    force_release (fun _ _ _ => true) 2 10 99
        ⟨7, 1, 2, 2, [⟨1, 10, 100, 20, 1⟩], 0⟩ =
      ⟨⟨7, 1, 2, 2, [], 0⟩,
       [⟨2, .EmitSuccess .EscrowAccountReleased⟩],
       [⟨7, 99, 100⟩], .ok ()⟩ ∧
    ((force_release (fun _ _ _ => true) 2 10 99
        ⟨7, 1, 2, 2, [⟨1, 10, 100, 20, 1⟩], 0⟩).state.accounts).Perm [] :=
  (force_release_semantics (fun _ _ _ => true) 2 10 99
    ⟨7, 1, 2, 2, [⟨1, 10, 100, 20, 1⟩], 0⟩ 0).2.2.2
    rfl rfl (by decide) rfl (by decide) rfl

/-- C6: `add` error precedence, by complete case analysis in the source's
check order. A non-manager caller always gets `BadOrigin`, whatever the
openness, duplication or capacity situation; the manager on a closed
ledger always gets `EscrowIsClose`; the manager on an open ledger with a
duplicate holder gets `EscrowAccountDuplicate` even if the ledger is also
full; capacity (`EscrowAccountMax`) is only reported when all earlier
checks pass; otherwise the account is appended. -/
theorem add_error_precedence (c ref acc amt rcp : Nat) (s : Escrow) :
    (c ≠ s.manager →
      add c ref acc amt rcp s = ⟨s, [⟨c, .EmitError .BadOrigin⟩], [],
        .ok ()⟩)
    ∧
    (c = s.manager → s.status ≠ 0 →
      add c ref acc amt rcp s = ⟨s, [⟨c, .EmitError .EscrowIsClose⟩], [],
        .ok ()⟩)
    ∧
    (c = s.manager → s.status = 0 → (∃ x ∈ s.accounts, x.account = acc) →
      add c ref acc amt rcp s =
        ⟨s, [⟨c, .EmitError .EscrowAccountDuplicate⟩], [], .ok ()⟩)
    ∧
    (c = s.manager → s.status = 0 → (∀ x ∈ s.accounts, x.account ≠ acc) →
      s.accounts.length % 65536 ≥ s.maximum_accounts →
      add c ref acc amt rcp s =
        ⟨s, [⟨c, .EmitError .EscrowAccountMax⟩], [], .ok ()⟩)
    ∧
    (c = s.manager → s.status = 0 → (∀ x ∈ s.accounts, x.account ≠ acc) →
      s.accounts.length % 65536 < s.maximum_accounts →
      add c ref acc amt rcp s =
        ⟨{ s with accounts :=
             s.accounts ++ [⟨ref % 65536, acc, amt, rcp, 1⟩] },
         [⟨c, .EmitSuccess .EscrowAccountAdded⟩], [], .ok ()⟩) := by
  refine ⟨?_, ?_, ?_, ?_, ?_⟩
  · intro hc
    unfold add
    rw [if_pos hc]
  · intro hc hst
    unfold add
    rw [if_neg (by simp [hc]), if_pos hst]
  · intro hc hst hdup
    unfold add
    rw [if_neg (by simp [hc]), if_neg (by simp [hst]),
      if_pos (List.any_eq_true.mpr (by
        obtain ⟨x, hx, hxe⟩ := hdup
        exact ⟨x, hx, by simpa using hxe⟩))]
  · intro hc hst hnodup hcap
    unfold add
    rw [if_neg (by simp [hc]), if_neg (by simp [hst]),
      if_neg (fun hany => by
        obtain ⟨x, hx, hxe⟩ := List.any_eq_true.mp hany
        exact hnodup x hx (by simpa using hxe)),
      if_pos hcap]
  · intro hc hst hnodup hcap
    unfold add
    rw [if_neg (by simp [hc]), if_neg (by simp [hst]),
      if_neg (fun hany => by
        obtain ⟨x, hx, hxe⟩ := List.any_eq_true.mp hany
        exact hnodup x hx (by simpa using hxe)),
      if_neg (by omega)]

/-- C6 witness: a non-manager caller on a closed *and* full ledger with a
duplicate holder still gets `BadOrigin`, and the manager on that closed
ledger still gets `EscrowIsClose` — the earlier check wins. -/
theorem add_error_precedence_witness :
    add 9 1 10 5 20 ⟨7, 1, 2, 1, [⟨1, 10, 100, 20, 1⟩], 1⟩ =
      ⟨⟨7, 1, 2, 1, [⟨1, 10, 100, 20, 1⟩], 1⟩,
       [⟨9, .EmitError .BadOrigin⟩], [], .ok ()⟩ ∧
    add 2 1 10 5 20 ⟨7, 1, 2, 1, [⟨1, 10, 100, 20, 1⟩], 1⟩ =
      ⟨⟨7, 1, 2, 1, [⟨1, 10, 100, 20, 1⟩], 1⟩,
       [⟨2, .EmitError .EscrowIsClose⟩], [], .ok ()⟩ :=
  ⟨(add_error_precedence 9 1 10 5 20
      ⟨7, 1, 2, 1, [⟨1, 10, 100, 20, 1⟩], 1⟩).1 (by decide),
   (add_error_precedence 2 1 10 5 20
      ⟨7, 1, 2, 1, [⟨1, 10, 100, 20, 1⟩], 1⟩).2.1 rfl (by decide)⟩

/-- C7: `setup` is an owner-only full reset: a non-owner caller gets
`BadOrigin` and nothing changes; the owner's call replaces `asset_id`,
`manager` and `maximum_accounts`, empties `accounts`, opens the ledger
(`status := 0`) and reports success — there is no other outcome; and
running `setup` twice with the same arguments gives the same state as
running it once. -/
theorem setup_owner_reset (c a m x : Nat) (s : Escrow) :
    (c ≠ s.owner →
      setup c a m x s = ⟨s, [⟨c, .EmitError .BadOrigin⟩], [], .ok ()⟩)
    ∧
    (c = s.owner →
      setup c a m x s =
        ⟨⟨a, s.owner, m, x % 65536, [], 0⟩,
         [⟨c, .EmitSuccess .EscrowSetupSuccess⟩], [], .ok ()⟩)
    ∧
    (setup c a m x (setup c a m x s).state).state = (setup c a m x s).state := by
  refine ⟨?_, ?_, ?_⟩
  · intro hc
    unfold setup
    rw [if_pos hc]
  · intro hc
    unfold setup
    rw [if_neg (by simp [hc])]
  · by_cases hc : c = s.owner
    · simp only [setup, hc, ne_eq, not_true_eq_false, if_false,
        Escrow.mk.injEq, and_true, true_and]
    · simp [setup, hc]

/-- C7 witness: a non-owner `setup` call is rejected with `BadOrigin` and
does not touch the state. -/
theorem setup_owner_reset_witness :
    setup 9 8 3 5 ⟨7, 1, 2, 2, [⟨1, 10, 100, 20, 1⟩], 0⟩ =
      ⟨⟨7, 1, 2, 2, [⟨1, 10, 100, 20, 1⟩], 0⟩,
       [⟨9, .EmitError .BadOrigin⟩], [], .ok ()⟩ :=
  (setup_owner_reset 9 8 3 5 ⟨7, 1, 2, 2, [⟨1, 10, 100, 20, 1⟩], 0⟩).1
    (by decide)

/-- Case analysis of a dispatched operation: it either rejects with a
single soft-error notification and no state change, or succeeds with a
single success notification, or aborts (collaborator failure) with no
notification and no state change. In every case the notification carries
the caller as operator, and only the abort case breaks the success-shaped
return. -/
theorem applyOp_outcomes (t : Nat → Nat → Nat → Bool) (s : Escrow)
    (op : Op) :
    ((∃ err, (applyOp t s op).events =
        [⟨op.caller, EscrowStatus.EmitError err⟩]) ∧
      (applyOp t s op).state = s ∧ (applyOp t s op).ok = true) ∨
    ((∃ su, (applyOp t s op).events =
        [⟨op.caller, EscrowStatus.EmitSuccess su⟩]) ∧
      (applyOp t s op).ok = true) ∨
    ((applyOp t s op).events = [] ∧ (applyOp t s op).state = s ∧
      (applyOp t s op).ok = false) := by
  cases op with
  | setup c a m x =>
    simp only [applyOp, Op.caller]
    unfold setup
    split
    · exact Or.inl ⟨⟨.BadOrigin, rfl⟩, rfl, rfl⟩
    · exact Or.inr (Or.inl ⟨⟨.EscrowSetupSuccess, rfl⟩, rfl⟩)
  | close c =>
    simp only [applyOp, Op.caller]
    unfold close
    split
    · exact Or.inl ⟨⟨.BadOrigin, rfl⟩, rfl, rfl⟩
    · exact Or.inr (Or.inl ⟨⟨.EscrowCloseSuccess, rfl⟩, rfl⟩)
  | open_escrow c =>
    simp only [applyOp, Op.caller]
    unfold open_escrow
    split
    · exact Or.inl ⟨⟨.BadOrigin, rfl⟩, rfl, rfl⟩
    · exact Or.inr (Or.inl ⟨⟨.EscrowOpenSuccess, rfl⟩, rfl⟩)
  | add c ref acc amt rcp =>
    simp only [applyOp, Op.caller]
    unfold add
    split
    · exact Or.inl ⟨⟨.BadOrigin, rfl⟩, rfl, rfl⟩
    split
    · exact Or.inl ⟨⟨.EscrowIsClose, rfl⟩, rfl, rfl⟩
    split
    · exact Or.inl ⟨⟨.EscrowAccountDuplicate, rfl⟩, rfl, rfl⟩
    split
    · exact Or.inl ⟨⟨.EscrowAccountMax, rfl⟩, rfl, rfl⟩
    · exact Or.inr (Or.inl ⟨⟨.EscrowAccountAdded, rfl⟩, rfl⟩)
  | release c =>
    simp only [applyOp, Op.caller]
    unfold release
    split
    · exact Or.inl ⟨⟨.EscrowIsClose, rfl⟩, rfl, rfl⟩
    split
    · split
      · exact Or.inr (Or.inl ⟨⟨.EscrowAccountReleased, rfl⟩, rfl⟩)
      · exact Or.inr (Or.inr ⟨rfl, rfl, rfl⟩)
    · exact Or.inl ⟨⟨.EscrowAccountNotFound, rfl⟩, rfl, rfl⟩
  | force_release c acc rcp =>
    simp only [applyOp, Op.caller]
    unfold force_release
    split
    · exact Or.inl ⟨⟨.BadOrigin, rfl⟩, rfl, rfl⟩
    split
    · exact Or.inl ⟨⟨.EscrowIsClose, rfl⟩, rfl, rfl⟩
    split
    · split
      · exact Or.inr (Or.inl ⟨⟨.EscrowAccountReleased, rfl⟩, rfl⟩)
      · exact Or.inr (Or.inr ⟨rfl, rfl, rfl⟩)
    · exact Or.inl ⟨⟨.EscrowAccountNotFound, rfl⟩, rfl, rfl⟩

/-- C8: Soft errors are normal returns. `setup`, `close`, `open` and `add`
always return the success-shaped `Ok(())`; and whenever any operation emits
an `EmitError` notification (the soft/domain rejections `BadOrigin`,
`EscrowIsClose`, `EscrowAccountDuplicate`, `EscrowAccountMax`,
`EscrowAccountNotFound`), the state is completely unchanged and the call
still returns `Ok(())` — the error tag is surfaced only through the
notification. -/
theorem soft_error_normal_return (t : Nat → Nat → Nat → Bool) (s : Escrow)
    (op : Op) (c a m x ref acc amt rcp : Nat) :
    (setup c a m x s).result = .ok () ∧
    (close c s).result = .ok () ∧
    (open_escrow c s).result = .ok () ∧
    (add c ref acc amt rcp s).result = .ok () ∧
    ((∃ e ∈ (applyOp t s op).events, ∃ err, e.status = .EmitError err) →
      (applyOp t s op).state = s ∧ (applyOp t s op).ok = true) := by
  refine ⟨?_, ?_, ?_, ?_, ?_⟩
  · unfold setup
    split <;> rfl
  · unfold close
    split <;> rfl
  · unfold open_escrow
    split <;> rfl
  · unfold add
    split
    · rfl
    split
    · rfl
    split
    · rfl
    split <;> rfl
  · intro hyp
    rcases applyOp_outcomes t s op with
      ⟨_, hstate, hok⟩ | ⟨⟨su, hev⟩, _⟩ | ⟨hev, _, _⟩
    · exact ⟨hstate, hok⟩
    · obtain ⟨e, he, err, herr⟩ := hyp
      rw [hev] at he
      simp only [List.mem_singleton] at he
      rw [he] at herr
      exact absurd herr (by simp)
    · obtain ⟨e, he, _, _⟩ := hyp
      rw [hev] at he
      exact absurd he (by simp)

/-- C8 witness: a non-manager `close` emits the `BadOrigin` soft error yet
leaves the state unchanged and returns the success-shaped result. -/
theorem soft_error_normal_return_witness :
    (applyOp (fun _ _ _ => true) ⟨7, 1, 2, 2, [], 0⟩ (.close 9)).state =
      ⟨7, 1, 2, 2, [], 0⟩ ∧
    (applyOp (fun _ _ _ => true) ⟨7, 1, 2, 2, [], 0⟩ (.close 9)).ok = true :=
  (soft_error_normal_return (fun _ _ _ => true) ⟨7, 1, 2, 2, [], 0⟩
    (.close 9) 0 0 0 0 0 0 0 0).2.2.2.2
    ⟨⟨9, .EmitError .BadOrigin⟩, by decide, .BadOrigin, rfl⟩

/-- C9 counterexample: the claim says the read-only `get` operation also
emits exactly one notification, but the body of `Escrow::get` emits no
event at all: on a concretely constructed ledger the number of events
emitted by `get` is not one. -/
theorem get_emits_no_notification_cex :
    ¬ ((get (new 1 7 2)).2.length = 1) := by decide

/-- C9 amended: every state-changing operation (`setup`, `close`, `open`,
`add`, `release`, `force_release`) that completes normally (success or soft
error) emits exactly one notification, carrying the invoking caller as
`operator`; the read-only `get` emits no notification. -/
theorem one_notification_per_completed_op (t : Nat → Nat → Nat → Bool)
    (s : Escrow) (op : Op) :
    ((applyOp t s op).ok = true →
      (applyOp t s op).events.length = 1 ∧
      ∀ e ∈ (applyOp t s op).events, e.operator = op.caller) ∧
    (get s).2 = [] := by
  constructor
  · intro hok
    rcases applyOp_outcomes t s op with
      ⟨⟨err, hev⟩, _, _⟩ | ⟨⟨su, hev⟩, _⟩ | ⟨_, _, hko⟩
    · rw [hev]
      exact ⟨rfl, by simp⟩
    · rw [hev]
      exact ⟨rfl, by simp⟩
    · rw [hok] at hko
      exact absurd hko (by simp)
  · rfl

/-- C9 amended witness: a successful `close` by the manager emits exactly
one notification carrying the caller, and `get` emits none. -/
theorem one_notification_per_completed_op_witness :
    ((applyOp (fun _ _ _ => true) ⟨7, 1, 2, 2, [], 0⟩
        (.close 2)).events.length = 1 ∧
      ∀ e ∈ (applyOp (fun _ _ _ => true) ⟨7, 1, 2, 2, [], 0⟩
          (.close 2)).events,
        e.operator = (Op.close 2).caller) ∧
    (get (⟨7, 1, 2, 2, [], 0⟩ : Escrow)).2 = [] :=
  ⟨(one_notification_per_completed_op (fun _ _ _ => true)
      ⟨7, 1, 2, 2, [], 0⟩ (.close 2)).1 (by decide),
   (one_notification_per_completed_op (fun _ _ _ => true)
      ⟨7, 1, 2, 2, [], 0⟩ (.close 2)).2⟩

/-- C10: frame of `close` and `open`. For every caller and state, both
operations leave `asset_id`, `owner`, `manager`, `maximum_accounts` and the
whole `accounts` collection untouched (on the `BadOrigin` branch and on the
success branch alike); a manager call succeeds with the single status
mutation; and the operations are idempotent on the status field: `close` on
a closed ledger and `open` on an open ledger leave the state identical. -/
theorem close_open_frame (c : Nat) (s : Escrow) :
    ((close c s).state.asset_id = s.asset_id ∧
     (close c s).state.owner = s.owner ∧
     (close c s).state.manager = s.manager ∧
     (close c s).state.maximum_accounts = s.maximum_accounts ∧
     (close c s).state.accounts = s.accounts)
    ∧
    ((open_escrow c s).state.asset_id = s.asset_id ∧
     (open_escrow c s).state.owner = s.owner ∧
     (open_escrow c s).state.manager = s.manager ∧
     (open_escrow c s).state.maximum_accounts = s.maximum_accounts ∧
     (open_escrow c s).state.accounts = s.accounts)
    ∧
    (c = s.manager →
      close c s = ⟨{ s with status := 1 },
        [⟨c, .EmitSuccess .EscrowCloseSuccess⟩], [], .ok ()⟩ ∧
      open_escrow c s = ⟨{ s with status := 0 },
        [⟨c, .EmitSuccess .EscrowOpenSuccess⟩], [], .ok ()⟩)
    ∧
    (s.status = 1 → (close c s).state = s)
    ∧
    (s.status = 0 → (open_escrow c s).state = s) := by
  refine ⟨?_, ?_, ?_, ?_, ?_⟩
  · unfold close
    split <;> simp
  · unfold open_escrow
    split <;> simp
  · intro hc
    constructor
    · unfold close
      rw [if_neg (by simp [hc])]
    · unfold open_escrow
      rw [if_neg (by simp [hc])]
  · intro hst
    unfold close
    split
    · rfl
    · cases s
      simp_all
  · intro hst
    unfold open_escrow
    split
    · rfl
    · cases s
      simp_all

/-- C10 witness: closing an already-closed ledger as the manager leaves the
state literally identical. -/
theorem close_open_frame_witness :
    (close 2 ⟨7, 1, 2, 2, [⟨1, 10, 100, 20, 1⟩], 1⟩).state =
      ⟨7, 1, 2, 2, [⟨1, 10, 100, 20, 1⟩], 1⟩ :=
  (close_open_frame 2 ⟨7, 1, 2, 2, [⟨1, 10, 100, 20, 1⟩], 1⟩).2.2.2.1 rfl

end escrow
